import Mathlib

/-!
Verification of the announcement ingestion / enrichment / search pipeline
implemented in app.py (functions save_announcement, comprehensive_search,
extract_date_patterns, extract_text_parts, download_pdf, extract_pdf_text,
detect_language, translate_text, categorize_document, extract_key_info,
generate_pdf_summary, analyze_pdf, and the FTS triggers of init_db).

The embedding works over an in-memory model of the SQLite store.  Strings
are treated at character level; the regular expressions of the source are
embedded as explicit backtracking matchers with the same greedy semantics
as the Python re module (restricted to the ASCII inputs the scraper
produces; character classes are modeled on ASCII).  External collaborators
(the HTTP stack, pdfplumber, langdetect, googletrans, and the FTS5 MATCH
evaluator) are modeled as explicit oracle parameters, since their behavior
is outside this repository.
-/

namespace GalApp

/-! ### Python-level string primitives -/

/-- ASCII lowering of one character, as Python str.lower acts on the
ASCII inputs in scope. -/
def lowChar (c : Char) : Char := c.toLower

/-- ASCII lowering of a string. -/
def lowStr (s : String) : String := String.mk (s.toList.map lowChar)

/-- Python whitespace test, restricted to the ASCII whitespace characters
(space, tab, carriage return, line feed) that occur in scope. -/
def isPySpace (c : Char) : Bool := c.isWhitespace

/-- Python str.strip with no argument: drop whitespace from both ends. -/
def pyStrip (s : String) : String :=
  String.mk (((s.toList.dropWhile isPySpace).reverse.dropWhile isPySpace).reverse)

/-- Python str.split with no argument: split on whitespace runs, dropping
empty pieces. -/
def pySplit (s : String) : List String :=
  (go (s.toList.length + 1) s.toList).map String.mk
where
  go : Nat → List Char → List (List Char)
    | 0, _ => []
    | fuel + 1, cs =>
      match cs.dropWhile isPySpace with
      | [] => []
      | c :: rest =>
        let w := (c :: rest).takeWhile (fun c => !isPySpace c)
        w :: go fuel ((c :: rest).drop w.length)

/-- Whether the second string is a suffix of the first, the Python
str.endswith. -/
def strEndsWith (s suffix : String) : Bool :=
  suffix.toList.reverse.isPrefixOf s.toList.reverse

/-- Python s[:n] on strings (character count). -/
def strTake (s : String) (n : Nat) : String := String.mk (s.toList.take n)

/-- Whether the second string occurs as a contiguous substring of the
first, i.e. the Python expression needle in hay. -/
def containsSub (hay needle : String) : Bool :=
  subChars needle.toList hay.toList
where
  subChars : List Char → List Char → Bool
    | n, h =>
      if n.isPrefixOf h then true
      else match h with
        | [] => false
        | _ :: h' => subChars n h'

/-- Python truthiness of an optional string (None and the empty string
are falsy): models expressions such as if pdf_summary. -/
def pyTruthy : Option String → Bool
  | none => false
  | some s => s ≠ ""

/-- Python str.join restricted to a separator, i.e. sep.join(parts). -/
def joinSep (sep : String) : List String → String
  | [] => ""
  | [x] => x
  | x :: y :: ys => x ++ sep ++ joinSep sep (y :: ys)

/-- Python list(set(xs)).  A Python set has an unspecified iteration
order; the model fixes the order produced by List.dedup, and all theorems
about it only use membership and duplicate freedom, which are order
independent. -/
def pyListSet (xs : List String) : List String := xs.dedup

/-- Python text[i:i+n] chunking as in translate_text, driven by fuel so
that the recursion is structural. -/
def chunksOf (n : Nat) (s : String) : List String :=
  go (s.toList.length + 1) s.toList
where
  go : Nat → List Char → List String
    | 0, _ => []
    | _, [] => []
    | fuel + 1, cs => String.mk (cs.take n) :: go fuel (cs.drop n)

/-! ### SQLite LIKE

SQLite LIKE is case-insensitive on ASCII; the percent sign matches any
sequence and the underscore any single character.  The patterns built by
comprehensive_search are percent, the user token, percent. -/

/-- Core LIKE matcher over character lists (pattern, then subject). -/
def likeMatch : List Char → List Char → Bool
  | [], [] => true
  | [], _ :: _ => false
  | '%' :: ps, s =>
      likeMatch ps s ||
        (match s with
          | [] => false
          | _ :: s' => likeMatch ('%' :: ps) s')
  | '_' :: ps, _ :: s => likeMatch ps s
  | '_' :: _, [] => false
  | p :: ps, c :: s => (lowChar p == lowChar c) && likeMatch ps s
  | _ :: _, [] => false
termination_by ps s => ps.length + s.length

/-- SQL expression field LIKE pattern for a non-null text field. -/
def sqlLike (field pat : String) : Bool := likeMatch pat.toList field.toList

/-- SQL LIKE on a nullable column: NULL LIKE anything is not true. -/
def sqlLikeOpt (field : Option String) (pat : String) : Bool :=
  match field with
  | none => false
  | some s => sqlLike s pat

/-! ### Regular-expression machinery

Each Python pattern used by the source is embedded as a matcher that, at
a given position (with the preceding character supplied for word-boundary
tests), returns the captured group, the full consumed text and the rest
of the input.  Greedy quantifiers with backtracking are realized by
ordered candidate lists searched with List.findSome?, which is exactly
the backtracking order of the re module. -/

/-- Python word character for the word-boundary assertion, on ASCII. -/
def isWordChar (c : Char) : Bool := c.isAlpha || c.isDigit || c == '_'

/-- Word-boundary test between an optional previous and next character. -/
def boundary (prev next : Option Char) : Bool :=
  (match prev with | some c => isWordChar c | none => false) !=
  (match next with | some c => isWordChar c | none => false)

/-- Candidate splits for a greedy bounded repetition of a character
class, listed from the longest candidate down to the shortest. -/
def repCands (p : Char → Bool) (lo hi : Nat) (cs : List Char) :
    List (List Char × List Char) :=
  let run := (cs.takeWhile p).length
  let top := min hi run
  (((List.range (top + 1)).reverse).filter (fun n => lo ≤ n)).map
    (fun n => (cs.take n, cs.drop n))

/-- Candidate splits for an optional single character of a class: the
consuming candidate first (greedy), then the empty one. -/
def optCands (p : Char → Bool) (cs : List Char) :
    List (List Char × List Char) :=
  match cs with
  | c :: rest => if p c then [([c], rest), ([], cs)] else [([], cs)]
  | [] => [([], [])]

/-- Literal match of a word (already in the right case). -/
def litAt (w : List Char) (cs : List Char) : Option (List Char × List Char) :=
  if w.isPrefixOf cs then some (cs.take w.length, cs.drop w.length) else none

/-- Case-insensitive literal match of a word given in lowercase. -/
def litAtCI (w : List Char) (cs : List Char) : Option (List Char × List Char) :=
  if (cs.take w.length).map lowChar == w then
    (if w.length ≤ cs.length then some (cs.take w.length, cs.drop w.length) else none)
  else none

/-- A matcher takes the previous character and the input at the current
position and yields (captured group, consumed text, rest). -/
abbrev Matcher := Option Char → List Char → Option (List Char × List Char × List Char)

/-- Scan of re.findall: try the matcher at every position, left to
right, continuing after each non-overlapping match; returns the captured
groups.  Fuel is the input length plus one, enough because every match
of the patterns in scope consumes at least one character. -/
def findall (m : Matcher) (s : String) : List String :=
  (go (s.toList.length + 1) none s.toList).map String.mk
where
  go : Nat → Option Char → List Char → List (List Char)
    | 0, _, _ => []
    | _ + 1, _, [] => []
    | fuel + 1, prev, c :: cs =>
      match m prev (c :: cs) with
      | some (grp, consumed, rest) => grp :: go fuel consumed.getLast? rest
      | none => go fuel (some c) cs

/-- Scan of re.sub with a single-space replacement, as used by
extract_text_parts. -/
def subAll (m : Matcher) (s : String) : String :=
  String.mk (go (s.toList.length + 1) none s.toList)
where
  go : Nat → Option Char → List Char → List Char
    | 0, _, s => s
    | _ + 1, _, [] => []
    | fuel + 1, prev, c :: cs =>
      match m prev (c :: cs) with
      | some (_, consumed, rest) => ' ' :: go fuel consumed.getLast? rest
      | none => c :: go fuel (some c) cs

/-- Character classes used by the patterns. -/
def isDigitCh (c : Char) : Bool := c.isDigit

/-- ASCII letter, the effect of the class A to Z under re.I. -/
def isLetterCh (c : Char) : Bool := c.isAlpha

/-- The class of a dash or whitespace inside paper codes. -/
def isCodeSep (c : Char) : Bool := c == '-' || isPySpace c

/-- End-of-match boundary helper: consumed is the text matched so far
(never empty for the patterns in scope), rest the remaining input. -/
def endBoundary (prev : Option Char) (consumed rest : List Char) : Bool :=
  boundary (match consumed.getLast? with | some c => some c | none => prev) rest.head?

/-- Matcher for the numeric date pattern: word boundary, one or two
digits, dash or slash, one or two digits, dash or slash, two to four
digits, word boundary.  Used by extract_date_patterns, extract_text_parts
and extract_key_info. -/
def matchNumDate : Matcher := fun prev cs =>
  if !boundary prev cs.head? then none else
  (repCands isDigitCh 1 2 cs).findSome? fun (d1, r1) =>
  (optCands (fun c => c == '-' || c == '/') r1).findSome? fun (s1, r2) =>
  if s1.isEmpty then none else
  (repCands isDigitCh 1 2 r2).findSome? fun (d2, r3) =>
  (optCands (fun c => c == '-' || c == '/') r3).findSome? fun (s2, r4) =>
  if s2.isEmpty then none else
  (repCands isDigitCh 2 4 r4).findSome? fun (d3, r5) =>
  let consumed := d1 ++ s1 ++ d2 ++ s2 ++ d3
  if endBoundary prev consumed r5 then some (consumed, consumed, r5) else none

/-- Matcher for the bare-year pattern: word boundary, the digits two
and zero, two more digits, word boundary. -/
def matchYear : Matcher := fun prev cs =>
  if !boundary prev cs.head? then none else
  (litAt ['2', '0'] cs).bind fun (lit, r1) =>
  (repCands isDigitCh 2 2 r1).findSome? fun (d, r2) =>
  let consumed := lit ++ d
  if endBoundary prev consumed r2 then some (consumed, consumed, r2) else none

/-- The twelve lowercase month prefixes, in the order of the pattern. -/
def monthLits : List (List Char) :=
  [['j','a','n'], ['f','e','b'], ['m','a','r'], ['a','p','r'],
   ['m','a','y'], ['j','u','n'], ['j','u','l'], ['a','u','g'],
   ['s','e','p'], ['o','c','t'], ['n','o','v'], ['d','e','c']]

/-- Matcher for the month pattern of extract_date_patterns: word
boundary, a month name prefix (captured group, case-insensitive), any
run of word characters, word boundary.  The group is only the three
letter prefix, as in the source pattern. -/
def matchMonth : Matcher := fun prev cs =>
  if !boundary prev cs.head? then none else
  monthLits.findSome? fun w =>
  (litAtCI w cs).bind fun (grp, r1) =>
  let tailRun := r1.takeWhile isWordChar
  let consumed := grp ++ tailRun
  let r2 := r1.drop tailRun.length
  if endBoundary prev consumed r2 then some (grp, consumed, r2) else none

/-- Matcher for paper codes (pattern under re.I): word boundary, two to
four letters, optional dash or whitespace, three or four digits, optional
dash or whitespace, optional letter, word boundary. -/
def matchPaperCode : Matcher := fun prev cs =>
  if !boundary prev cs.head? then none else
  (repCands isLetterCh 2 4 cs).findSome? fun (ls, r1) =>
  (optCands isCodeSep r1).findSome? fun (s1, r2) =>
  (repCands isDigitCh 3 4 r2).findSome? fun (ds, r3) =>
  (optCands isCodeSep r3).findSome? fun (s2, r4) =>
  (optCands isLetterCh r4).findSome? fun (l2, r5) =>
  let consumed := ls ++ s1 ++ ds ++ s2 ++ l2
  if endBoundary prev consumed r5 then some (consumed, consumed, r5) else none

/-- Matcher for the long date pattern of extract_key_info (under re.I):
word boundary, one or two digits, whitespace, a month prefix, a run of
letters, whitespace, two to four digits, word boundary. -/
def matchLongDate : Matcher := fun prev cs =>
  if !boundary prev cs.head? then none else
  (repCands isDigitCh 1 2 cs).findSome? fun (d1, r1) =>
  (repCands isPySpace 1 r1.length r1).findSome? fun (w1, r2) =>
  monthLits.findSome? fun mo =>
  (litAtCI mo r2).bind fun (ms, r3) =>
  (repCands isLetterCh 0 r3.length r3).findSome? fun (ex, r4) =>
  (repCands isPySpace 1 r4.length r4).findSome? fun (w2, r5) =>
  (repCands isDigitCh 2 4 r5).findSome? fun (d2, r6) =>
  let consumed := d1 ++ w1 ++ ms ++ ex ++ w2 ++ d2
  if endBoundary prev consumed r6 then some (consumed, consumed, r6) else none

/-- The four am and pm literals, tried in the order of the pattern
(this pattern carries no re.I flag, so the case is exact). -/
def amPmLits : List (List Char) := [['a','m'], ['p','m'], ['A','M'], ['P','M']]

/-- Matcher for time tokens: word boundary, one or two digits, optional
colon or dot, two digits, any whitespace, optional am or pm literal,
word boundary. -/
def matchTime : Matcher := fun prev cs =>
  if !boundary prev cs.head? then none else
  (repCands isDigitCh 1 2 cs).findSome? fun (d1, r1) =>
  (optCands (fun c => c == ':' || c == '.') r1).findSome? fun (s1, r2) =>
  (repCands isDigitCh 2 2 r2).findSome? fun (d2, r3) =>
  (repCands isPySpace 0 r3.length r3).findSome? fun (ws, r4) =>
  (ampmCands r4).findSome? fun (ap, r5) =>
  let consumed := d1 ++ s1 ++ d2 ++ ws ++ ap
  if endBoundary prev consumed r5 then some (consumed, consumed, r5) else none
where
  /-- Candidates for the optional am or pm group: matching literals in
  pattern order, then the empty candidate. -/
  ampmCands (cs : List Char) : List (List Char × List Char) :=
    (amPmLits.filterMap fun w => (litAt w cs).map fun (m, r) => (m, r)) ++ [([], cs)]

/-- The subject vocabulary alternatives of extract_key_info, in pattern
order.  Each alternative is a list of literal words; consecutive words
are separated by a whitespace run in the subject pattern. -/
def subjectLits : List (List (List Char)) :=
  [[['m','a','t','h','e','m','a','t','i','c','s']],
   [['p','h','y','s','i','c','s']],
   [['c','h','e','m','i','s','t','r','y']],
   [['e','n','g','l','i','s','h']],
   [['c','o','m','p','u','t','e','r']],
   [['s','c','i','e','n','c','e']],
   [['p','r','o','g','r','a','m','m','i','n','g']],
   [['d','a','t','a'], ['s','t','r','u','c','t','u','r','e']],
   [['a','l','g','o','r','i','t','h','m']],
   [['d','a','t','a','b','a','s','e']],
   [['n','e','t','w','o','r','k']],
   [['s','o','f','t','w','a','r','e']],
   [['o','p','e','r','a','t','i','n','g'], ['s','y','s','t','e','m']]]

/-- Match one subject alternative (a word, or two words separated by
whitespace) starting at cs; the subject text is already lowercase. -/
def matchSubjectAlt : List (List Char) → List Char → Option (List Char × List Char)
  | [], cs => some ([], cs)
  | [w], cs => litAt w cs
  | w :: w2 :: ws, cs =>
    (litAt w cs).bind fun (m1, r1) =>
    (repCands isPySpace 1 r1.length r1).findSome? fun (sp, r2) =>
    (matchSubjectAlt (w2 :: ws) r2).map fun (m2, r3) => (m1 ++ sp ++ m2, r3)

/-- Matcher for subject names: word boundary, one alternative from the
fixed vocabulary, word boundary. -/
def matchSubject : Matcher := fun prev cs =>
  if !boundary prev cs.head? then none else
  subjectLits.findSome? fun alt =>
  (matchSubjectAlt alt cs).bind fun (m, r) =>
  if endBoundary prev m r then some (m, m, r) else none

/-! ### Classifier (categorize_document) -/

/-- The category table of categorize_document, in the order of the
Python dict literal (insertion order is iteration order). -/
def categoriesList : List (String × List String) :=
  [("Examination",
    ["exam", "examination", "paper code", "paper-code", "answer sheet",
     "question paper", "time table", "timetable", "date sheet", "datesheet",
     "hall ticket", "admit card", "semester", "internal", "external",
     "mid-term", "end-term", "practical", "viva"]),
   ("Academic Calendar",
    ["academic calendar", "holiday", "vacation", "session", "semester start",
     "semester end", "registration", "enrollment"]),
   ("Result",
    ["result", "marks", "grade", "cgpa", "sgpa", "transcript", "marksheet"]),
   ("Fee Notice",
    ["fee", "payment", "dues", "scholarship", "financial", "refund"]),
   ("Admission",
    ["admission", "intake", "enrollment", "counseling", "merit list"]),
   ("Uniform/Dress Code",
    ["uniform", "dress code", "dress-code", "attire", "id card"]),
   ("Event",
    ["event", "festival", "function", "celebration", "cultural", "sports"]),
   ("Assignment/Project",
    ["assignment", "project", "submission", "deadline", "thesis",
     "dissertation"]),
   ("Internship/Placement",
    ["internship", "placement", "job", "recruitment", "campus drive",
     "interview"]),
   ("Important Dates",
    ["important date", "last date", "deadline", "schedule", "timing"])]

/-- The loop of categorize_document: return the first category whose
keyword list has a member occurring in the lowered text, else the
default. -/
def catLoop (tl : String) : List (String × List String) → String
  | [] => "General Notice"
  | (cat, kws) :: rest =>
    if kws.any (fun kw => containsSub tl kw) then cat else catLoop tl rest

/-- categorize_document from app.py: empty text is the default category;
otherwise lower the text and scan the category table in order. -/
def categorize_document (text : String) : String :=
  if text = "" then "General Notice"
  else catLoop (lowStr text) categoriesList

/-! ### Key-fact extraction (extract_key_info) -/

/-- The optional fact lists of extract_key_info.  A key absent from the
Python dict is modeled by the empty list; the source only stores a key
when the match list is nonempty, and every consumer tests the key with
Python truthiness, so the two encodings agree observably. -/
structure Facts where
  paper_codes : List String
  dates : List String
  times : List String
  subjects : List String
deriving DecidableEq, Repr

/-- extract_key_info from app.py.  Each field truncates the raw findall
list to its cap and then deduplicates it, exactly as the source
expression list(set(matches[:cap])). -/
def extract_key_info (text : String) : Facts :=
  if text = "" then ⟨[], [], [], []⟩
  else
    let text_lower := lowStr text
    let paper_codes := findall matchPaperCode text
    let dates := findall matchNumDate text ++ findall matchLongDate text
    let times := findall matchTime text
    let subjects := findall matchSubject text_lower
    ⟨pyListSet (paper_codes.take 10), pyListSet (dates.take 20),
     pyListSet (times.take 10), pyListSet (subjects.take 10)⟩

/-! ### Summarizer (generate_pdf_summary) -/

/-- generate_pdf_summary from app.py: the fixed sentinel on empty text,
otherwise the category line, the nonempty fact segments with their
sub-caps, and a truncated excerpt, joined with the fixed delimiter. -/
def generate_pdf_summary (text : String) (key_info : Facts)
    (category : String) : String :=
  if text = "" then "Unable to extract content from PDF."
  else
    let parts :=
      ["Type: " ++ category] ++
      (if key_info.paper_codes ≠ [] then
        ["Paper Codes: " ++ String.intercalate ", " (key_info.paper_codes.take 5)]
       else []) ++
      (if key_info.dates ≠ [] then
        ["Dates: " ++ String.intercalate ", " (key_info.dates.take 5)]
       else []) ++
      (if key_info.times ≠ [] then
        ["Times: " ++ String.intercalate ", " (key_info.times.take 3)]
       else []) ++
      (if key_info.subjects ≠ [] then
        ["Subjects: " ++ String.intercalate ", " (key_info.subjects.take 5)]
       else []) ++
      (let brief := joinSep " " ((pySplit text).take 50)
       let brief := if 200 < brief.length then strTake brief 200 ++ "..." else brief
       ["Content: " ++ brief])
    joinSep " | " parts

/-! ### Record store and search-index model

One announcements row, one FTS projection entry, and the database state.
The AUTOINCREMENT id counter is nextId; rows are kept in insertion
order. -/

structure Announcement where
  id : Nat
  date_text : String
  title : String
  url : String
  pdf_summary : Option String
  category : Option String
  translated_title : Option String
deriving DecidableEq, Repr

/-- One row of the announcements_fts virtual table, keyed by rowid. -/
structure FtsEntry where
  rowid : Nat
  title : String
  date_text : String
  pdf_summary : Option String
  translated_title : Option String
  category : Option String
deriving DecidableEq, Repr

structure DB where
  nextId : Nat
  rows : List Announcement
  fts : List FtsEntry
deriving DecidableEq, Repr

/-- The database created by init_db: empty tables, ids starting at 1. -/
def emptyDB : DB := ⟨1, [], []⟩

/-- The projection a record contributes to the FTS table, as written by
the announcements_ai and announcements_au triggers. -/
def projEntry (r : Announcement) : FtsEntry :=
  ⟨r.id, r.title, r.date_text, r.pdf_summary, r.translated_title, r.category⟩

/-- SQL COALESCE of an incoming value with the stored one: NULL keeps
the stored value, any non-null incoming value (the empty string
included) replaces it. -/
def coalesce (incoming stored : Option String) : Option String :=
  match incoming with
  | none => stored
  | some s => some s

/-- INSERT INTO announcements followed by the announcements_ai trigger,
which appends the projection of the new row to the FTS table. -/
def insertRow (db : DB) (date_text title url : String)
    (pdf_summary category translated_title : Option String) : DB :=
  let r : Announcement :=
    ⟨db.nextId, date_text, title, url, pdf_summary, category, translated_title⟩
  ⟨db.nextId + 1, db.rows ++ [r], db.fts ++ [projEntry r]⟩

/-- UPDATE announcements SET ... WHERE url = u followed, per affected
row, by the announcements_au trigger: delete the FTS entry at the old
rowid, then insert the projection of the new row values. -/
def sqlUpdateByUrl (db : DB) (u : String) (f : Announcement → Announcement) : DB :=
  let rows := db.rows.map (fun r => if r.url == u then f r else r)
  let affected := db.rows.filter (fun r => r.url == u)
  let fts := affected.foldl
    (fun fts r => (fts.filter (fun e => e.rowid ≠ r.id)) ++ [projEntry (f r)])
    db.fts
  ⟨db.nextId, rows, fts⟩

/-- save_announcement from app.py: look the url up; update the three
enrichment fields with COALESCE when the record exists and at least one
incoming value is truthy; insert a fresh record otherwise. -/
def save_announcement (db : DB) (date_text title url : String)
    (pdf_summary category translated_title : Option String := none) : DB :=
  if db.rows.any (fun r => r.url == url) then
    if pyTruthy pdf_summary || pyTruthy category || pyTruthy translated_title then
      sqlUpdateByUrl db url (fun r =>
        { r with
          pdf_summary := coalesce pdf_summary r.pdf_summary
          category := coalesce category r.category
          translated_title := coalesce translated_title r.translated_title })
    else db
  else insertRow db date_text title url pdf_summary category translated_title

/-- The direct UPDATE of the two analysis paths (route analyze_pdf and
the worker body of analyze_pdf_async): SET pdf_summary, category at the
given url, with the triggers firing as for any update. -/
def updateSummaryCategory (db : DB) (url summary category : String) : DB :=
  sqlUpdateByUrl db url (fun r =>
    { r with pdf_summary := some summary, category := some category })

/-! ### Search (comprehensive_search and its helpers) -/

/-- extract_date_patterns from app.py: numeric dates, then bare years,
then month-name prefixes, concatenated in source order. -/
def extract_date_patterns (query : String) : List String :=
  findall matchNumDate query ++ findall matchYear query ++
    findall matchMonth query

/-- extract_text_parts from app.py: blank out numeric dates and bare
years, split on whitespace, keep stripped words longer than one
character. -/
def extract_text_parts (query : String) : List String :=
  let cleaned := subAll matchYear (subAll matchNumDate query)
  ((pySplit cleaned).filter (fun w => 1 < (pyStrip w).length)).map pyStrip

/-- ORDER BY id DESC, by insertion into a descending-sorted list. -/
def insertDesc (r : Announcement) : List Announcement → List Announcement
  | [] => [r]
  | x :: xs => if x.id < r.id then r :: x :: xs else x :: insertDesc r xs

/-- Sort rows by id descending, most recently inserted first. -/
def orderByIdDesc (l : List Announcement) : List Announcement :=
  l.foldr insertDesc []

/-- The LIKE disjunction built for one text token: title, date_text,
pdf_summary or translated_title contains the token. -/
def likeAnyTextField (r : Announcement) (t : String) : Bool :=
  let pat := "%" ++ t ++ "%"
  sqlLike r.title pat || sqlLike r.date_text pat ||
    sqlLikeOpt r.pdf_summary pat || sqlLikeOpt r.translated_title pat

/-- The condition list of the fallback query: one disjunctive condition
per text token, then one date_text condition per date pattern, in the
order the source appends them. -/
def tier2Conds (q : String) : List (Announcement → Bool) :=
  (extract_text_parts q).map (fun t => fun r => likeAnyTextField r t) ++
    (extract_date_patterns q).map
      (fun d => fun r => sqlLike r.date_text ("%" ++ d ++ "%"))

/-- The tier-2 fallback of comprehensive_search: with no conditions no
query is run and the accumulated empty result is returned; otherwise
the AND of all conditions, ordered by id descending, limited to 100. -/
def tier2Query (db : DB) (q : String) : List Announcement :=
  let conds := tier2Conds q
  if conds.isEmpty then []
  else (orderByIdDesc (db.rows.filter (fun r => conds.all (fun c => c r)))).take 100

/-- The rows the tier-1 FTS strategy contributes: an exception inside
the try block leaves the accumulated result list empty. -/
def tier1Rows : Except String (List Announcement) → List Announcement
  | .ok rs => rs
  | .error _ => []

/-- comprehensive_search from app.py.  The outcome of the tier-1 FTS
query is an oracle parameter, since FTS5 MATCH evaluation lives inside
SQLite: an ok value carries the rows it returned, an error value models
a raised exception.  An empty query returns the most recent 100 rows;
a nonempty query returns the tier-1 rows when there are any, and the
tier-2 fallback otherwise. -/
def comprehensive_search (db : DB)
    (tier1 : Except String (List Announcement)) (query : String) :
    List Announcement :=
  let q := pyStrip query
  if q = "" then (orderByIdDesc db.rows).take 100
  else
    let results := tier1Rows tier1
    if results.isEmpty then tier2Query db q else results

/-! ### External collaborators

HTTP, pdfplumber, langdetect and googletrans are outside the repository;
they appear as oracle fields of an environment.  Payload bytes are
modeled as opaque strings; a parsed PDF is its list of pages, each page
carrying the optional text pdfplumber extracts from it.  An error value
of an oracle models a raised exception. -/

structure HttpResp where
  contentType : String
  content : String
deriving DecidableEq, Repr

structure Env where
  pdfAvailable : Bool
  langdetectAvailable : Bool
  translatorAvailable : Bool
  http : String → Except String HttpResp
  parse : String → Except String (List (Option String))
  detectOracle : String → Except String String
  translateOracle : String → String → Except String String

/-- download_pdf from app.py: any exception from the request (network
failure or a non-2xx status surfaced by raise_for_status) yields none;
a payload whose content type does not mention pdf and whose url does not
end in .pdf yields none; otherwise the payload bytes. -/
def download_pdf (env : Env) (url : String) : Option String :=
  match env.http url with
  | .error _ => none
  | .ok resp =>
    if !containsSub (lowStr resp.contentType) "pdf" &&
        !strEndsWith (lowStr url) ".pdf" then none
    else some resp.content

/-- The page loop of extract_pdf_text: concatenate the text of the
pages that yielded any (pages whose extract_text returned None or the
empty string contribute nothing), each followed by a newline. -/
def pagesText (pages : List (Option String)) : String :=
  pages.foldl
    (fun acc p =>
      match p with
      | some t => if t ≠ "" then acc ++ t ++ "\n" else acc
      | none => acc)
    ""

/-- extract_pdf_text from app.py: none when the PDF library is absent
or there is no payload or opening the payload raises; otherwise the
stripped concatenation of the text of the first ten pages. -/
def extract_pdf_text (env : Env) (pdf_bytes : Option String) : Option String :=
  if !env.pdfAvailable then none
  else
    match pdf_bytes with
    | none => none
    | some b =>
      match env.parse b with
      | .error _ => none
      | .ok pages => some (pyStrip (pagesText (pages.take 10)))

/-- detect_language from app.py: the default code en when the detector
is absent, the text is empty, or detection raises; otherwise the
detector verdict on the first thousand characters. -/
def detect_language (env : Env) (text : String) : String :=
  if !env.langdetectAvailable || text = "" then "en"
  else
    match env.detectOracle (strTake text 1000) with
    | .ok l => l
    | .error _ => "en"

/-- translate_text from app.py: pass the text through when translation
is unavailable or the text is empty; translate in one call below the
chunk size; otherwise translate up to five chunks of 4500 characters
and join them with spaces, any raised exception returning the original
text. -/
def translate_text (env : Env) (text : String) (target : String) : String :=
  if !env.translatorAvailable || text = "" then text
  else if text.length ≤ 4500 then
    match env.translateOracle text target with
    | .ok r => r
    | .error _ => text
  else
    match ((chunksOf 4500 text).take 5).mapM
        (fun ck => env.translateOracle ck target) with
    | .ok ts => joinSep " " ts
    | .error _ => text

/-- The text the analysis pipeline classifies and summarizes: the
translation when the detected language was Hindi and the translation is
truthy, the extracted text otherwise (the expression translated_text or
text of the source). -/
def analysisTextOf (env : Env) (text : String) : String :=
  match (if detect_language env text = "hi"
      then some (translate_text env text "en") else none) with
  | some t => if t ≠ "" then t else text
  | none => text

/-! ### The synchronous analysis route (analyze_pdf) -/

/-- The JSON payloads the analyze_pdf route can produce: the three
error responses, the cached hit, and the freshly computed analysis.
The cached flag of the source appears as the choice between the cached
and fresh constructors. -/
inductive AnalyzeResp where
  | errNoUrl : AnalyzeResp
  | errDownload : AnalyzeResp
  | errExtract : AnalyzeResp
  | cached (summary : String) (category : Option String) : AnalyzeResp
  | fresh (summary category : String) (key_info : Facts)
      (language_detected : String) (translated : Bool) : AnalyzeResp
deriving DecidableEq, Repr

/-- The cached field of the JSON response, when the response carries
one. -/
def AnalyzeResp.cachedFlag : AnalyzeResp → Option Bool
  | .cached _ _ => some true
  | .fresh _ _ _ _ _ => some false
  | _ => none

/-- The summary field of the JSON response, when present. -/
def AnalyzeResp.summaryField : AnalyzeResp → Option String
  | .cached s _ => some s
  | .fresh s _ _ _ _ => some s
  | _ => none

/-- The category field of the JSON response, when present. -/
def AnalyzeResp.categoryField : AnalyzeResp → Option (Option String)
  | .cached _ c => some c
  | .fresh _ c _ _ _ => some (some c)
  | _ => none

/-- analyze_pdf from app.py (the analyze route), returning the response
and the possibly updated database.  The cached branch requires a stored
record whose pdf_summary is truthy; the fresh branch runs the pipeline
and persists summary and category with the direct UPDATE before
returning. -/
def analyze_pdf (env : Env) (db : DB) (url : String) : AnalyzeResp × DB :=
  if url = "" then (.errNoUrl, db)
  else
    let row? := db.rows.find? (fun r => r.url == url)
    match row? with
    | some row =>
      if pyTruthy row.pdf_summary then
        (.cached (row.pdf_summary.getD "") row.category, db)
      else analyzeFresh env db url
    | none => analyzeFresh env db url
where
  /-- The fresh-analysis path below the cache check. -/
  analyzeFresh (env : Env) (db : DB) (url : String) : AnalyzeResp × DB :=
    match download_pdf env url with
    | none => (.errDownload, db)
    | some b =>
      match extract_pdf_text env (some b) with
      | none => (.errExtract, db)
      | some text =>
        if text = "" then (.errExtract, db)
        else
          let lang := detect_language env text
          let translated_text : Option String :=
            if lang = "hi" then some (translate_text env text "en") else none
          let analysis_text :=
            match translated_text with
            | some t => if t ≠ "" then t else text
            | none => text
          let category := categorize_document analysis_text
          let key_info := extract_key_info analysis_text
          let summary := generate_pdf_summary analysis_text key_info category
          (.fresh summary category key_info lang (lang = "hi"),
            updateSummaryCategory db url summary category)

/-! ### Reachable database states

The states a database can be in after init_db and any sequence of the
write operations of the source: save_announcement (the scraper and any
rediscovery) and the direct summary/category UPDATE of the two analysis
paths. -/

inductive Reachable : DB → Prop where
  | init : Reachable emptyDB
  | save (db : DB) (date_text title url : String)
      (pdf_summary category translated_title : Option String) :
      Reachable db →
      Reachable (save_announcement db date_text title url
        pdf_summary category translated_title)
  | analyzeUpdate (db : DB) (url summary category : String) :
      Reachable db →
      Reachable (updateSummaryCategory db url summary category)

/-! ### The auxiliary invariant carried through the reachability
induction: distinct ids, distinct urls, ids below the counter, and the
FTS table a permutation of the row projections. -/

def StrongInv (db : DB) : Prop :=
  (db.rows.map (fun r => r.id)).Nodup ∧
  (db.rows.map (fun r => r.url)).Nodup ∧
  (∀ r ∈ db.rows, r.id < db.nextId) ∧
  db.fts.Perm (db.rows.map projEntry)

/-! ### Concrete fixtures used by witnesses and counterexamples -/

/-- A store holding one discovered announcement, before enrichment. -/
def db0 : DB :=
  save_announcement emptyDB "12-01-2025" "Mid Sem Exam" "u.pdf" none none none

/-- An environment whose document fetch and parse succeed with one page
of text, with all optional subsystems available. -/
def env0 : Env :=
  ⟨true, true, true,
   fun _ => .ok ⟨"application/pdf", "B"⟩,
   fun _ => .ok [some "exam"],
   fun _ => .ok "en",
   fun t _ => .ok t⟩

/-- An environment whose parse succeeds with zero pages. -/
def envNoText : Env := { env0 with parse := fun _ => .ok [] }

/-- An environment whose parse yields one page with no extractable
text. -/
def envOnePageNone : Env := { env0 with parse := fun _ => .ok [none] }

/-- Ten occurrences of one paper code followed by a distinct one: the
first ten findall matches are all equal, the eleventh is new. -/
def textC4 : String :=
  "AB123,AB123,AB123,AB123,AB123,AB123,AB123,AB123,AB123,AB123,AB124"

/-! ## Helper lemmas -/

theorem ne_empty_of_length_pos (s : String) (h : 0 < s.length) : s ≠ "" := by
  intro he
  subst he
  simp at h

theorem joinSep_cons_eq (sep x : String) (xs : List String) :
    ∃ rest, joinSep sep (x :: xs) = x ++ rest := by
  cases xs with
  | nil => exact ⟨"", (String.append_empty x).symm⟩
  | cons y ys => exact ⟨sep ++ joinSep sep (y :: ys), String.append_assoc ..⟩

/-- The summary composed by generate_pdf_summary is never the empty
string: the sentinel is nonempty, and otherwise the string starts with
the category segment. -/
theorem generate_pdf_summary_ne_empty (text : String) (k : Facts) (c : String) :
    generate_pdf_summary text k c ≠ "" := by
  unfold generate_pdf_summary
  split
  · decide
  · have key : ∀ xs : List String, joinSep " | " (("Type: " ++ c) :: xs) ≠ "" := by
      intro xs
      obtain ⟨rest, hrest⟩ := joinSep_cons_eq " | " ("Type: " ++ c) xs
      rw [hrest]
      apply ne_empty_of_length_pos
      rw [String.length_append, String.length_append]
      have h6 : ("Type: " : String).length = 6 := rfl
      omega
    exact key _

/-- The scan loop of categorize_document is the first-match search over
the category table. -/
theorem catLoop_eq_find (tl : String) (l : List (String × List String)) :
    catLoop tl l =
      ((l.find? (fun p => p.2.any (fun kw => containsSub tl kw))).map
        Prod.fst).getD "General Notice" := by
  induction l with
  | nil => rfl
  | cons p rest ih =>
    obtain ⟨cat, kws⟩ := p
    by_cases h : kws.any (fun kw => containsSub tl kw) = true
    · simp [catLoop, List.find?, h]
    · simp only [Bool.not_eq_true] at h
      simp [catLoop, List.find?, h, ih]

/-- Branch selection of save_announcement when the record exists and
one incoming enrichment value is truthy: a coalesce UPDATE runs. -/
theorem save_existing_update (db : DB) (d t u : String)
    (ps cat tt : Option String)
    (hex : db.rows.any (fun r => r.url == u) = true)
    (hg : (pyTruthy ps || pyTruthy cat || pyTruthy tt) = true) :
    save_announcement db d t u ps cat tt =
      sqlUpdateByUrl db u (fun r =>
        { r with
          pdf_summary := coalesce ps r.pdf_summary
          category := coalesce cat r.category
          translated_title := coalesce tt r.translated_title }) := by
  unfold save_announcement
  rw [hex, hg]
  rfl

theorem all_map_gen {α β : Type} (f : α → β) (l : List α) (p : β → Bool) :
    (l.map f).all p = l.all (fun a => p (f a)) := by
  induction l with
  | nil => rfl
  | cons a l ih => simp [List.all_cons, ih]

/-- A page list with no extractable text contributes nothing to the
concatenation loop of extract_pdf_text. -/
theorem pagesText_all_none (l : List (Option String))
    (h : ∀ p ∈ l, p = none) : pagesText l = "" := by
  have aux : ∀ (acc : String) (l : List (Option String)), (∀ p ∈ l, p = none) →
      l.foldl (fun acc p =>
        match p with
        | some t => if t ≠ "" then acc ++ t ++ "\n" else acc
        | none => acc) acc = acc := by
    intro acc l hl
    induction l generalizing acc with
    | nil => rfl
    | cons p l ih =>
      have hp : p = none := hl p (List.mem_cons_self ..)
      subst hp
      exact ih acc (fun p hp => hl p (List.mem_cons_of_mem _ hp))
  exact aux "" l h

/-- Finding by a predicate stable under a map commutes with the map. -/
theorem find?_map_stable {α : Type} (g : α → α) (p : α → Bool) (l : List α)
    (hg : ∀ a, p (g a) = p a) :
    (l.map g).find? p = (l.find? p).map g := by
  induction l with
  | nil => rfl
  | cons a l ih =>
    simp only [List.map_cons, List.find?_cons]
    rw [hg a]
    cases hpa : p a <;> simp [hpa, ih]

/-- On a table with pairwise distinct urls, the WHERE url filter keeps
no row or exactly one row. -/
theorem filter_url_cases (rows : List Announcement) (u : String)
    (hnd : (rows.map (fun r => r.url)).Nodup) :
    rows.filter (fun r => r.url == u) = [] ∨
      ∃ r0, rows.filter (fun r => r.url == u) = [r0] := by
  induction rows with
  | nil => exact Or.inl rfl
  | cons r rs ih =>
    rw [List.map_cons, List.nodup_cons] at hnd
    by_cases h : (r.url == u) = true
    · right
      refine ⟨r, ?_⟩
      rw [List.filter_cons, if_pos h]
      have hnil : rs.filter (fun x => x.url == u) = [] := by
        rw [List.filter_eq_nil_iff]
        intro x hx hxu
        apply hnd.1
        rw [List.mem_map]
        rw [beq_iff_eq] at h hxu
        exact ⟨x, hx, by rw [hxu, h]⟩
      rw [hnil]
    · rw [List.filter_cons, if_neg h]
      exact ih hnd.2

/-- Insertion of a record at an unseen url preserves the auxiliary
invariant: the fresh id is above every stored id, the url is new, and
the insert trigger appends exactly the projection of the new row. -/
theorem strongInv_insert (db : DB) (d t u : String)
    (ps c tt : Option String)
    (hany : db.rows.any (fun r => r.url == u) = false)
    (hinv : StrongInv db) : StrongInv (insertRow db d t u ps c tt) := by
  obtain ⟨hids, hurls, hlt, hperm⟩ := hinv
  have hrows : (insertRow db d t u ps c tt).rows =
      db.rows ++ [⟨db.nextId, d, t, u, ps, c, tt⟩] := rfl
  refine ⟨?_, ?_, ?_, ?_⟩
  · rw [hrows, List.map_append, List.map_singleton]
    rw [(List.perm_append_singleton _ _).nodup_iff, List.nodup_cons]
    refine ⟨?_, hids⟩
    intro hmem
    rw [List.mem_map] at hmem
    obtain ⟨x, hx, hid⟩ := hmem
    have := hlt x hx
    simp only at hid
    omega
  · rw [hrows, List.map_append, List.map_singleton]
    rw [(List.perm_append_singleton _ _).nodup_iff, List.nodup_cons]
    refine ⟨?_, hurls⟩
    intro hmem
    rw [List.mem_map] at hmem
    obtain ⟨x, hx, hurl⟩ := hmem
    rw [List.any_eq_false] at hany
    apply hany x hx
    rw [beq_iff_eq]
    exact hurl
  · rw [hrows]
    intro r hr
    rw [List.mem_append] at hr
    rcases hr with hr | hr
    · have := hlt r hr
      show r.id < db.nextId + 1
      omega
    · rw [List.mem_singleton] at hr
      subst hr
      show db.nextId < db.nextId + 1
      omega
  · rw [hrows, List.map_append]
    exact hperm.append_right _

/-- An UPDATE at a url preserves the auxiliary invariant whenever the
row transformation keeps id and url, because the update trigger
replaces exactly the projection of the affected row. -/
theorem strongInv_update (db : DB) (u : String)
    (f : Announcement → Announcement)
    (hf : ∀ r, (f r).id = r.id ∧ (f r).url = r.url)
    (hinv : StrongInv db) : StrongInv (sqlUpdateByUrl db u f) := by
  obtain ⟨hids, hurls, hlt, hperm⟩ := hinv
  rcases filter_url_cases db.rows u hurls with hnil | ⟨r0, hone⟩
  · have hrows : (sqlUpdateByUrl db u f).rows = db.rows := by
      show db.rows.map _ = db.rows
      have : ∀ r ∈ db.rows,
          (if r.url == u then f r else r) = id r := by
        intro r hr
        rw [if_neg (List.filter_eq_nil_iff.mp hnil r hr)]
        rfl
      rw [List.map_congr_left this, List.map_id]
    have hfts : (sqlUpdateByUrl db u f).fts = db.fts := by
      show (db.rows.filter _).foldl _ db.fts = db.fts
      rw [hnil, List.foldl_nil]
    exact ⟨by rw [hrows]; exact hids, by rw [hrows]; exact hurls,
      by rw [hrows]; exact hlt, by rw [hfts, hrows]; exact hperm⟩
  · have hr0 : r0 ∈ db.rows ∧ (r0.url == u) = true := by
      have : r0 ∈ db.rows.filter (fun r => r.url == u) := by
        rw [hone]; exact List.mem_singleton_self _
      exact List.mem_filter.mp this
    obtain ⟨a, bb, habs⟩ := List.append_of_mem hr0.1
    have hr0u : r0.url = u := by rw [beq_iff_eq] at hr0; exact hr0.2
    -- distinctness facts across the decomposition
    have hidsD : (r0.id :: ((a ++ bb).map (fun r => r.id))).Nodup := by
      have := hids
      rw [habs, List.map_append, List.map_cons, List.nodup_middle,
        ← List.map_append] at this
      exact this
    have hurlsD : (r0.url :: ((a ++ bb).map (fun r => r.url))).Nodup := by
      have := hurls
      rw [habs, List.map_append, List.map_cons, List.nodup_middle,
        ← List.map_append] at this
      exact this
    have hother_url : ∀ x ∈ a ++ bb, ¬(x.url == u) = true := by
      intro x hx hxu
      rw [List.nodup_cons] at hurlsD
      apply hurlsD.1
      rw [List.mem_map]
      rw [beq_iff_eq] at hxu
      exact ⟨x, hx, by rw [hxu, hr0u]⟩
    have hother_id : ∀ x ∈ a ++ bb, x.id ≠ r0.id := by
      intro x hx hxe
      rw [List.nodup_cons] at hidsD
      exact hidsD.1 (List.mem_map.mpr ⟨x, hx, hxe⟩)
    -- the mapped row list is the pointwise replacement of r0
    have hrows : (sqlUpdateByUrl db u f).rows = a ++ f r0 :: bb := by
      show db.rows.map _ = _
      rw [habs, List.map_append, List.map_cons]
      have ha : a.map (fun r => if r.url == u then f r else r) = a := by
        have : ∀ r ∈ a, (if r.url == u then f r else r) = id r := by
          intro r hr
          rw [if_neg (hother_url r (List.mem_append.mpr (Or.inl hr)))]
          rfl
        rw [List.map_congr_left this, List.map_id]
      have hb : bb.map (fun r => if r.url == u then f r else r) = bb := by
        have : ∀ r ∈ bb, (if r.url == u then f r else r) = id r := by
          intro r hr
          rw [if_neg (hother_url r (List.mem_append.mpr (Or.inr hr)))]
          rfl
        rw [List.map_congr_left this, List.map_id]
      rw [ha, hb, if_pos hr0.2]
    have hfts : (sqlUpdateByUrl db u f).fts =
        (db.fts.filter (fun e => e.rowid ≠ r0.id)) ++ [projEntry (f r0)] := by
      show (db.rows.filter _).foldl _ db.fts = _
      rw [hone, List.foldl_cons, List.foldl_nil]
    refine ⟨?_, ?_, ?_, ?_⟩
    · rw [hrows, List.map_append, List.map_cons, (hf r0).1]
      have := hids
      rw [habs, List.map_append, List.map_cons] at this
      exact this
    · rw [hrows, List.map_append, List.map_cons, (hf r0).2]
      have := hurls
      rw [habs, List.map_append, List.map_cons] at this
      exact this
    · rw [hrows]
      intro r hr
      show r.id < db.nextId
      rw [List.mem_append, List.mem_cons] at hr
      rcases hr with hr | hr | hr
      · exact hlt r (by rw [habs]; exact List.mem_append.mpr (Or.inl hr))
      · subst hr
        rw [(hf r0).1]
        exact hlt r0 hr0.1
      · exact hlt r
          (by rw [habs]
              exact List.mem_append.mpr
                (Or.inr (List.mem_cons_of_mem _ hr)))
    · rw [hrows, hfts, List.map_append, List.map_cons]
      have hpermD : db.fts.Perm
          ((a.map projEntry) ++ projEntry r0 :: (bb.map projEntry)) := by
        have := hperm
        rw [habs, List.map_append, List.map_cons] at this
        exact this
      have hfilter :
          ((a.map projEntry) ++ projEntry r0 :: (bb.map projEntry)).filter
            (fun e => e.rowid ≠ r0.id) =
          (a.map projEntry) ++ (bb.map projEntry) := by
        rw [List.filter_append, List.filter_cons_of_neg (by simp [projEntry])]
        have hka : (a.map projEntry).filter (fun e => e.rowid ≠ r0.id) =
            a.map projEntry := by
          rw [List.filter_eq_self]
          intro e he
          rw [List.mem_map] at he
          obtain ⟨x, hx, hxe⟩ := he
          subst hxe
          simp [projEntry,
            hother_id x (List.mem_append.mpr (Or.inl hx))]
        have hkb : (bb.map projEntry).filter (fun e => e.rowid ≠ r0.id) =
            bb.map projEntry := by
          rw [List.filter_eq_self]
          intro e he
          rw [List.mem_map] at he
          obtain ⟨x, hx, hxe⟩ := he
          subst hxe
          simp [projEntry,
            hother_id x (List.mem_append.mpr (Or.inr hx))]
        rw [hka, hkb]
      have step1 : (db.fts.filter (fun e => e.rowid ≠ r0.id) ++
          [projEntry (f r0)]).Perm
          (((a.map projEntry ++ projEntry r0 :: bb.map projEntry).filter
            (fun e => e.rowid ≠ r0.id)) ++ [projEntry (f r0)]) :=
        (hpermD.filter _).append_right _
      have step2 : (((a.map projEntry ++ projEntry r0 ::
          bb.map projEntry).filter (fun e => e.rowid ≠ r0.id)) ++
          [projEntry (f r0)]).Perm
          (a.map projEntry ++ projEntry (f r0) :: bb.map projEntry) := by
        rw [hfilter]
        exact (List.perm_append_singleton _ _).trans List.perm_middle.symm
      exact step1.trans step2

/-- Every reachable database state satisfies the auxiliary invariant. -/
theorem strongInv_reachable (db : DB) (h : Reachable db) : StrongInv db := by
  induction h with
  | init =>
    exact ⟨List.nodup_nil, List.nodup_nil, fun r hr => absurd hr
      (List.not_mem_nil r), List.Perm.refl _⟩
  | save db d t u ps c tt hr ih =>
    by_cases hany : db.rows.any (fun r => r.url == u) = true
    · by_cases hg : (pyTruthy ps || pyTruthy c || pyTruthy tt) = true
      · rw [save_existing_update db d t u ps c tt hany hg]
        exact strongInv_update db u _ (fun r => ⟨rfl, rfl⟩) ih
      · have : save_announcement db d t u ps c tt = db := by
          unfold save_announcement
          rw [hany]
          rw [Bool.not_eq_true] at hg
          rw [hg]
          rfl
        rw [this]
        exact ih
    · rw [Bool.not_eq_true] at hany
      have : save_announcement db d t u ps c tt =
          insertRow db d t u ps c tt := by
        unfold save_announcement
        rw [hany]
        rfl
      rw [this]
      exact strongInv_insert db d t u ps c tt hany ih
  | analyzeUpdate db url s c hr ih =>
    exact strongInv_update db url _ (fun r => ⟨rfl, rfl⟩) ih

/-! ## Claim theorems -/

/-- C9: in every database state reachable through the write operations
of the source (insert and coalesce update of save_announcement, and the
direct summary/category update of the analysis paths, each firing the
FTS triggers), the search-index projection is consistent with the
record store: every index entry is exactly the projection of a stored
record — so no entry exists without a corresponding record and no stale
field survives an update — and every stored record has its current
projection in the index. -/
theorem index_projection_consistent (db : DB) (h : Reachable db) :
    (∀ e ∈ db.fts, ∃ r ∈ db.rows, e = projEntry r) ∧
    (∀ r ∈ db.rows, projEntry r ∈ db.fts) := by
  have hperm := (strongInv_reachable db h).2.2.2
  constructor
  · intro e he
    have hmem : e ∈ db.rows.map projEntry := hperm.mem_iff.mp he
    rw [List.mem_map] at hmem
    obtain ⟨r, hrr, he'⟩ := hmem
    exact ⟨r, hrr, he'.symm⟩
  · intro r hrr
    exact hperm.mem_iff.mpr (List.mem_map_of_mem _ hrr)

/-- C9 witness: index consistency at the concrete reachable state
holding one discovered announcement. -/
theorem index_projection_consistent_witness :
    (∀ e ∈ db0.fts, ∃ r ∈ db0.rows, e = projEntry r) ∧
    (∀ r ∈ db0.rows, projEntry r ∈ db0.fts) :=
  index_projection_consistent db0
    (Reachable.save emptyDB "12-01-2025" "Mid Sem Exam" "u.pdf"
      none none none Reachable.init)

/-- C3: for every input text, categorize_document is deterministic (it
is a pure function) and returns the first category of the fixed ordered
table whose keyword set has a case-insensitive substring match in the
lowered text, so a text with keywords of two categories classifies to
the earlier one, and a text matching no keyword classifies to the
default General Notice. -/
theorem classifier_first_match_priority (text : String) :
    categorize_document text =
      ((categoriesList.find?
          (fun p => p.2.any (fun kw => containsSub (lowStr text) kw))).map
        Prod.fst).getD "General Notice" := by
  unfold categorize_document
  by_cases h : text = ""
  · subst h
    decide
  · rw [if_neg h, catLoop_eq_find]

/-- C5: an exception raised by the tier-1 structured-index query is
caught and leaves the result accumulator empty, so the search proceeds
exactly as for a tier-1 query that returned zero rows, running the
tier-2 fallback for every nonempty query; the function totally returns
a row list, never a propagated error. -/
theorem search_tier1_error_caught (db : DB) (q e : String) :
    comprehensive_search db (.error e) q = comprehensive_search db (.ok []) q ∧
      (pyStrip q ≠ "" →
        comprehensive_search db (.error e) q = tier2Query db (pyStrip q)) := by
  constructor
  · rfl
  · intro h
    simp [comprehensive_search, tier1Rows, if_neg h]

/-- C5 witness: a concrete failing tier-1 query on a nonempty store
falls back to the tier-2 result. -/
theorem search_tier1_error_caught_witness :
    comprehensive_search db0 (.error "fts failed") "exam" =
      tier2Query db0 "exam" :=
  (search_tier1_error_caught db0 "exam" "fts failed").2 (by decide)

/-- C10: a nonempty query whose fallback parse extracts no text token
and no date pattern (for example, a query whose whitespace-separated
tokens all have length one) makes the tier-2 fallback build no
conditions and run no query, so when tier 1 failed or returned zero
rows the search result is empty, not the full table. -/
theorem search_no_conditions_empty (db : DB)
    (t1 : Except String (List Announcement)) (q : String)
    (hq : pyStrip q ≠ "") (h1 : tier1Rows t1 = [])
    (ht : extract_text_parts (pyStrip q) = [])
    (hd : extract_date_patterns (pyStrip q) = []) :
    comprehensive_search db t1 q = [] := by
  simp [comprehensive_search, h1, if_neg hq, tier2Query, tier2Conds, ht, hd]

/-- C10 witness: the query of two length-one tokens returns nothing on
a nonempty store when tier 1 contributed no rows. -/
theorem search_no_conditions_empty_witness :
    db0.rows ≠ [] ∧ comprehensive_search db0 (.ok []) "a b" = [] :=
  ⟨by decide,
   search_no_conditions_empty db0 (.ok []) "a b" (by decide) rfl
     (by decide) (by decide)⟩

/-- C2: calling save_announcement twice with the same unseen url and no
enrichment arguments stores exactly one record for that url; the second
call leaves the database completely unchanged (so the record keeps the
id assigned at first insert and its date_text and title are not
mutated by rediscovery). -/
theorem upsert_idempotent (db : DB) (d1 t1 d2 t2 u : String)
    (h : ∀ r ∈ db.rows, r.url ≠ u) :
    save_announcement (save_announcement db d1 t1 u none none none)
        d2 t2 u none none none =
      save_announcement db d1 t1 u none none none ∧
    (save_announcement db d1 t1 u none none none).rows.filter
        (fun r => r.url == u) =
      [⟨db.nextId, d1, t1, u, none, none, none⟩] := by
  have hany : db.rows.any (fun r => r.url == u) = false := by
    simp only [List.any_eq_false]
    intro r hr
    simp [h r hr]
  have h1 : save_announcement db d1 t1 u none none none =
      insertRow db d1 t1 u none none none := by
    simp [save_announcement, hany]
  constructor
  · rw [h1]
    have hany2 : (insertRow db d1 t1 u none none none).rows.any
        (fun r => r.url == u) = true := by
      simp [insertRow, List.any_eq_true]
    simp [save_announcement, hany2, pyTruthy]
  · rw [h1]
    simp only [insertRow, List.filter_append]
    have hleft : db.rows.filter (fun r => r.url == u) = [] := by
      simp only [List.filter_eq_nil_iff]
      intro r hr
      simp [h r hr]
    rw [hleft]
    simp

/-- C2 witness: two upserts of one url into the empty store. -/
theorem upsert_idempotent_witness :
    save_announcement (save_announcement emptyDB "d1" "t1" "u" none none none)
        "d2" "t2" "u" none none none =
      save_announcement emptyDB "d1" "t1" "u" none none none ∧
    (save_announcement emptyDB "d1" "t1" "u" none none none).rows.filter
        (fun r => r.url == "u") =
      [⟨1, "d1", "t1", "u", none, none, none⟩] :=
  upsert_idempotent emptyDB "d1" "t1" "d2" "t2" "u" (by decide)

/-- C1 counterexample: the coalesce merge preserves a stored value only
against a null incoming value.  An incoming empty-string summary sent
together with a truthy category passes the update guard, and SQL
COALESCE treats the empty string as present, so the previously stored
nonempty summary S is erased by an empty incoming value — refuting the
claim that enrichment fields are updated only with non-null/non-empty
incoming values. -/
theorem coalesce_merge_counterexample :
    ((save_announcement
        (save_announcement
          (save_announcement emptyDB "d" "t" "u" none none none)
          "d" "t" "u" (some "S") none none)
        "d" "t" "u" (some "") (some "X") none).rows.find?
      (fun r => r.url == "u")).map (fun r => r.pdf_summary) =
        some (some "") ∧
    some ("" : String) ≠ some "S" := by
  constructor
  · decide
  · decide

/-- C1 (amended): enrichment never erases a field through a null
incoming value — the update guard requires some truthy incoming field,
and COALESCE keeps the stored value wherever the incoming one is null.
In particular, applying enrichment with a nonempty summary and null
category, then enrichment with a null summary and nonempty category,
leaves every record at that url with both contributions: summary S and
category X.  (Preservation is only guaranteed against null, not against
empty-string incoming values, and the two direct analysis updates write
freshly computed non-null values for both fields.) -/
theorem coalesce_merge_amended (db : DB) (d t d2 t2 u s c : String)
    (hs : s ≠ "") (hc : c ≠ "")
    (hex : db.rows.any (fun r => r.url == u) = true) :
    (∃ r ∈ (save_announcement (save_announcement db d t u (some s) none none)
        d2 t2 u none (some c) none).rows, r.url = u) ∧
    ∀ r ∈ (save_announcement (save_announcement db d t u (some s) none none)
        d2 t2 u none (some c) none).rows,
      r.url = u → r.pdf_summary = some s ∧ r.category = some c := by
  have hg1 : pyTruthy (some s) = true := by simp [pyTruthy, hs]
  have hg2 : pyTruthy (some c) = true := by simp [pyTruthy, hc]
  have h1 : save_announcement db d t u (some s) none none =
      sqlUpdateByUrl db u (fun r =>
        { r with pdf_summary := some s }) := by
    rw [save_existing_update db d t u (some s) none none hex
      (by rw [hg1]; rfl)]
    rfl
  have hrows1 : (save_announcement db d t u (some s) none none).rows =
      db.rows.map (fun r => if r.url == u then { r with pdf_summary := some s }
        else r) := by
    rw [h1]; rfl
  have hany1 : (save_announcement db d t u (some s) none none).rows.any
      (fun r => r.url == u) = true := by
    rw [hrows1]
    rw [List.any_eq_true] at hex ⊢
    obtain ⟨r, hr, hru⟩ := hex
    refine ⟨if r.url == u then { r with pdf_summary := some s } else r,
      List.mem_map_of_mem _ hr, ?_⟩
    rw [hru]
    simpa using hru
  have h2 : save_announcement (save_announcement db d t u (some s) none none)
      d2 t2 u none (some c) none =
      sqlUpdateByUrl (save_announcement db d t u (some s) none none) u
        (fun r => { r with category := some c }) := by
    rw [save_existing_update _ d2 t2 u none (some c) none hany1
      (by rw [hg2]; rfl)]
    rfl
  have hrows2 : (save_announcement
      (save_announcement db d t u (some s) none none)
      d2 t2 u none (some c) none).rows =
      db.rows.map (fun r =>
        if r.url == u then
          { r with pdf_summary := some s, category := some c }
        else r) := by
    rw [h2]
    show ((save_announcement db d t u (some s) none none).rows.map
      (fun r1 => if r1.url == u then { r1 with category := some c } else r1)) = _
    rw [hrows1, List.map_map]
    apply List.map_congr_left
    intro r _
    by_cases h : (r.url == u) = true
    · simp [Function.comp, h]
    · simp [Function.comp, h]
  constructor
  · rw [List.any_eq_true] at hex
    obtain ⟨r, hr, hru⟩ := hex
    have hru' : r.url = u := by simpa using hru
    rw [hrows2]
    refine ⟨_, List.mem_map_of_mem _ hr, ?_⟩
    simp [hru']
  · rw [hrows2]
    intro r' hr' hr'u
    rw [List.mem_map] at hr'
    obtain ⟨r, hr, hmap⟩ := hr'
    by_cases hru : (r.url == u) = true
    · rw [if_pos hru] at hmap
      subst hmap
      exact ⟨rfl, rfl⟩
    · rw [if_neg hru] at hmap
      subst hmap
      simp only [beq_iff_eq] at hru
      exact absurd hr'u hru

/-- C4 counterexample: extract_key_info truncates before it
deduplicates.  In a text whose first ten paper-code matches are ten
copies of one code followed by a distinct eleventh code, the first
ten distinct values occurring in the text are the two codes, yet the
returned list is the singleton of the repeated code: the claimed
dedup-before-truncate order would have kept AB124. -/
theorem extract_key_info_dedup_counterexample :
    "AB124" ∈ (pyListSet (findall matchPaperCode textC4)).take 10 ∧
    "AB124" ∉ (extract_key_info textC4).paper_codes ∧
    (extract_key_info textC4).paper_codes = ["AB123"] := by
  decide

/-- C4 (amended): each fact list of extract_key_info is truncated to
its cap first — keeping the first 10, 20, 10, 10 raw matches, duplicates
included — and only then deduplicated with set semantics, so the
returned list holds exactly the distinct values among the first
cap-many occurrences (and may omit distinct values appearing later in
the text even when fewer than cap distinct values were kept). -/
theorem extract_key_info_trunc_then_dedup (text : String) :
    ((extract_key_info text).paper_codes.Nodup ∧
      ∀ x, x ∈ (extract_key_info text).paper_codes ↔
        x ∈ (findall matchPaperCode text).take 10) ∧
    ((extract_key_info text).dates.Nodup ∧
      ∀ x, x ∈ (extract_key_info text).dates ↔
        x ∈ (findall matchNumDate text ++ findall matchLongDate text).take 20) ∧
    ((extract_key_info text).times.Nodup ∧
      ∀ x, x ∈ (extract_key_info text).times ↔
        x ∈ (findall matchTime text).take 10) ∧
    ((extract_key_info text).subjects.Nodup ∧
      ∀ x, x ∈ (extract_key_info text).subjects ↔
        x ∈ (findall matchSubject (lowStr text)).take 10) := by
  by_cases h : text = ""
  · subst h
    have hf : ∀ m : Matcher, findall m "" = [] := fun _ => rfl
    have hl : lowStr "" = "" := rfl
    simp [extract_key_info, hl, hf]
  · simp [extract_key_info, if_neg h, pyListSet, List.nodup_dedup,
      List.mem_dedup]

/-- C6 counterexample: the tier-2 fallback is not the pure AND-of-
conditions characterization on every nonempty query reaching it.  For
a query from which no text token (length over one) and no date pattern
is extracted, both universal conditions are vacuously true of every
record, so the claimed characterization returns the whole (nonempty)
store, while the code builds no conditions, runs no query, and returns
the empty list. -/
theorem search_tier2_and_counterexample :
    comprehensive_search db0 (.ok []) "a b" = [] ∧
    (orderByIdDesc (db0.rows.filter (fun r =>
      (extract_text_parts (pyStrip "a b")).all (fun t => likeAnyTextField r t) &&
      (extract_date_patterns (pyStrip "a b")).all
        (fun d => sqlLike r.date_text ("%" ++ d ++ "%"))))).take 100 ≠ [] := by
  decide

/-- C6 (amended): for every nonempty query reaching the tier-2 fallback
from which at least one condition is extracted (a text token of length
over one, or a date-like substring), the result is exactly the records,
most recent first and at most 100, for which every extracted text token
LIKE-matches at least one of title, date text, summary, translated
title, AND every extracted date-like substring LIKE-matches the date
text field — an AND of conditions, unlike the OR over tokens of tier 1.
When no condition is extracted the fallback instead returns the empty
list without running a query. -/
theorem search_tier2_and_semantics (db : DB)
    (t1 : Except String (List Announcement)) (q : String)
    (hq : pyStrip q ≠ "") (h1 : tier1Rows t1 = [])
    (hc : extract_text_parts (pyStrip q) ≠ [] ∨
      extract_date_patterns (pyStrip q) ≠ []) :
    comprehensive_search db t1 q =
      (orderByIdDesc (db.rows.filter (fun r =>
        (extract_text_parts (pyStrip q)).all (fun t => likeAnyTextField r t) &&
        (extract_date_patterns (pyStrip q)).all
          (fun d => sqlLike r.date_text ("%" ++ d ++ "%"))))).take 100 := by
  have hnil : tier2Conds (pyStrip q) ≠ [] := by
    intro hn
    simp only [tier2Conds, List.append_eq_nil, List.map_eq_nil_iff] at hn
    rcases hc with hc | hc
    · exact hc hn.1
    · exact hc hn.2
  have hmain : comprehensive_search db t1 q = tier2Query db (pyStrip q) := by
    simp [comprehensive_search, h1, if_neg hq]
  have hunfold : tier2Query db (pyStrip q) =
      if (tier2Conds (pyStrip q)).isEmpty then []
      else (orderByIdDesc (db.rows.filter
        (fun r => (tier2Conds (pyStrip q)).all (fun c => c r)))).take 100 := rfl
  have hEmp : (tier2Conds (pyStrip q)).isEmpty = false := by
    cases hl : tier2Conds (pyStrip q)
    · exact absurd hl hnil
    · rfl
  rw [hmain, hunfold, hEmp]
  simp only [Bool.false_eq_true, if_false]
  congr 2
  apply List.filter_congr
  intro r _
  simp only [tier2Conds, List.all_append, all_map_gen]

/-- C6 witness: the amended AND characterization at a concrete query
with one extracted token, on a store with one matching record. -/
theorem search_tier2_and_semantics_witness :
    comprehensive_search db0 (.ok []) "exam" =
      (orderByIdDesc (db0.rows.filter (fun r =>
        (extract_text_parts (pyStrip "exam")).all
          (fun t => likeAnyTextField r t) &&
        (extract_date_patterns (pyStrip "exam")).all
          (fun d => sqlLike r.date_text ("%" ++ d ++ "%"))))).take 100 :=
  search_tier2_and_semantics db0 (.ok []) "exam" (by decide) rfl
    (Or.inl (by decide))

/-- C7 counterexample: a recognized document whose bounded prefix
yields zero textual content does not make extract_pdf_text return the
null value — it returns the empty string (the stripped concatenation of
no page text), a falsy but non-null result. -/
theorem extract_zero_content_counterexample :
    extract_pdf_text envNoText (some "b") = some "" ∧
    (some ("" : String)) ≠ none := by
  exact ⟨rfl, by simp⟩

/-- C7 (amended): extract_pdf_text never raises — every failure
degrades to a returned value.  It returns null when the PDF library is
unavailable, when there is no payload, and when opening the payload
raises; its result depends only on the first ten pages; and a prefix
with zero textual content yields the empty string, a falsy value that
is not null. -/
theorem extract_pdf_text_bounded (env : Env) (b : String)
    (pages : List (Option String))
    (hparse : env.parse b = .ok pages)
    (hnone : ∀ p ∈ pages.take 10, p = none) :
    (env.pdfAvailable = false → ∀ ob, extract_pdf_text env ob = none) ∧
    extract_pdf_text env none = none ∧
    (∀ b' e, env.parse b' = .error e → extract_pdf_text env (some b') = none) ∧
    (∀ b' pages', env.parse b' = .ok pages' → pages'.take 10 = pages.take 10 →
      extract_pdf_text env (some b') = extract_pdf_text env (some b)) ∧
    (env.pdfAvailable = true → extract_pdf_text env (some b) = some "") := by
  refine ⟨?_, ?_, ?_, ?_, ?_⟩
  · intro hav ob
    simp [extract_pdf_text, hav]
  · cases hav : env.pdfAvailable <;> simp [extract_pdf_text, hav]
  · intro b' e he
    cases hav : env.pdfAvailable <;> simp [extract_pdf_text, hav, he]
  · intro b' pages' hp' heq
    simp [extract_pdf_text, hparse, hp', heq]
  · intro hav
    have hptxt : pagesText (pages.take 10) = "" := pagesText_all_none _ hnone
    simp [extract_pdf_text, hav, hparse, hptxt]
    rfl

/-- C7 witness: the amended properties at a concrete environment whose
single page has no extractable text. -/
theorem extract_pdf_text_bounded_witness :
    extract_pdf_text envOnePageNone none = none ∧
    (envOnePageNone.pdfAvailable = true →
      extract_pdf_text envOnePageNone (some "b") = some "") :=
  ⟨(extract_pdf_text_bounded envOnePageNone "b" [none] rfl (by decide)).2.1,
   (extract_pdf_text_bounded envOnePageNone "b" [none] rfl
      (by decide)).2.2.2.2⟩

/-- C8: for a stored record that is not yet enriched (its summary is
null or empty, so the first call runs the analysis) whose document
download and text extraction succeed, calling the analyze route twice
returns the fresh response (cached false) and then the cached response
(cached true) with identical summary and category both times; the first
call persists summary and category to the record store before
returning, and the second call reads them back without recomputation
and without touching the store. -/
theorem analyze_twice_cached (env : Env) (db : DB) (url : String)
    (r : Announcement) (b t : String)
    (hurl : url ≠ "")
    (hfind : db.rows.find? (fun x => x.url == url) = some r)
    (hfresh : pyTruthy r.pdf_summary = false)
    (hdl : download_pdf env url = some b)
    (hex : extract_pdf_text env (some b) = some t)
    (ht : t ≠ "") :
    ∃ s c ki lang,
      analyze_pdf env db url =
        (.fresh s c ki lang (lang = "hi"), updateSummaryCategory db url s c) ∧
      analyze_pdf env (updateSummaryCategory db url s c) url =
        (.cached s (some c), updateSummaryCategory db url s c) ∧
      (updateSummaryCategory db url s c).rows.find? (fun x => x.url == url) =
        some { r with pdf_summary := some s, category := some c } ∧
      (AnalyzeResp.fresh s c ki lang (lang = "hi")).cachedFlag = some false ∧
      (AnalyzeResp.cached s (some c)).cachedFlag = some true := by
  have hr_url : (r.url == url) = true :=
    @List.find?_some Announcement (fun x => x.url == url) r db.rows hfind
  set AT := analysisTextOf env t with hATdef
  set C := categorize_document AT with hCdef
  set K := extract_key_info AT with hKdef
  set S := generate_pdf_summary AT K C with hSdef
  set L := detect_language env t with hLdef
  have hSne : S ≠ "" := hSdef ▸ generate_pdf_summary_ne_empty AT K C
  have hfind2 : (updateSummaryCategory db url S C).rows.find?
      (fun x => x.url == url) =
      some { r with pdf_summary := some S, category := some C } := by
    have hrows2 : (updateSummaryCategory db url S C).rows =
        db.rows.map (fun x => if x.url == url then
          { x with pdf_summary := some S, category := some C } else x) := rfl
    have hg : ∀ a : Announcement,
        ((if a.url == url then
          { a with pdf_summary := some S, category := some C } else a).url ==
            url) = (a.url == url) := by
      intro a
      by_cases h : (a.url == url) = true
      · rw [if_pos h]
      · rw [if_neg h]
    rw [hrows2, find?_map_stable _ _ _ hg, hfind, Option.map_some',
      if_pos hr_url]
  refine ⟨S, C, K, L, ?_, ?_, hfind2, rfl, rfl⟩
  · simp only [analyze_pdf, if_neg hurl, hfind, hfresh, Bool.false_eq_true,
      if_false]
    simp only [analyze_pdf.analyzeFresh, hdl, hex]
    rw [if_neg ht]
    rfl
  · have hT : pyTruthy (some S) = true := by simp [pyTruthy, hSne]
    simp only [analyze_pdf, if_neg hurl, hfind2, hT, if_true]
    rfl

/-- C8 witness: two analyze calls on a concrete un-enriched record with
a one-page document reading exam. -/
theorem analyze_twice_cached_witness :
    ∃ s c ki lang,
      analyze_pdf env0 db0 "u.pdf" =
        (.fresh s c ki lang (lang = "hi"),
          updateSummaryCategory db0 "u.pdf" s c) ∧
      analyze_pdf env0 (updateSummaryCategory db0 "u.pdf" s c) "u.pdf" =
        (.cached s (some c), updateSummaryCategory db0 "u.pdf" s c) ∧
      (updateSummaryCategory db0 "u.pdf" s c).rows.find?
          (fun x => x.url == "u.pdf") =
        some { id := 1, date_text := "12-01-2025", title := "Mid Sem Exam",
               url := "u.pdf", pdf_summary := some s, category := some c,
               translated_title := none } ∧
      (AnalyzeResp.fresh s c ki lang (lang = "hi")).cachedFlag = some false ∧
      (AnalyzeResp.cached s (some c)).cachedFlag = some true :=
  analyze_twice_cached env0 db0 "u.pdf"
    ⟨1, "12-01-2025", "Mid Sem Exam", "u.pdf", none, none, none⟩ "B" "exam"
    (by decide) rfl rfl rfl rfl (by decide)

/-- C1 witness: the amended coalesce property at a concrete store with
one record. -/
theorem coalesce_merge_amended_witness :
    (∃ r ∈ (save_announcement (save_announcement db0 "d" "t" "u.pdf"
        (some "S") none none) "d" "t" "u.pdf" none (some "X") none).rows,
      r.url = "u.pdf") ∧
    ∀ r ∈ (save_announcement (save_announcement db0 "d" "t" "u.pdf"
        (some "S") none none) "d" "t" "u.pdf" none (some "X") none).rows,
      r.url = "u.pdf" → r.pdf_summary = some "S" ∧ r.category = some "X" :=
  coalesce_merge_amended db0 "d" "t" "d" "t" "u.pdf" "S" "X"
    (by decide) (by decide) (by decide)

end GalApp
